import Mathlib

/-!
Verification of the Tudat JSON-interface propagation configuration layer
(`Tudat/JsonInterface/Propagation/propagator.h`).

The C++ header is shallowly embedded: each JSON accessor pattern is modelled
by an explicitly typed configuration record with optional fields, fallible
code returns `Except`, and the external body/ephemeris store is a function
parameter.  Scalar values (`double` in the source) are modelled as `ℚ`; no
arithmetic is performed on them by this layer, so this is faithful.  The
`TUDAT_NAN` sentinel is modelled by `Option ℚ` with `none` standing for NaN.
-/

namespace TudatJson

/-- Error taxonomy of the layer (spec §7).  The concrete C++ code signals these
through exceptions raised by the support headers (`valueAccess.h` etc.); the
constructor names follow the specification's taxonomy. -/
inductive Error where
  | UndefinedKey
  | TypeMismatch
  | UnsupportedVariant
  | MissingTermination
  | UnresolvableInitialState
  | EphemerisUnavailable
  | UnknownTag
  | OutOfRange
deriving DecidableEq, Repr

/-- `propagators::IntegratedStateType` (the tags that appear in the
`integratedStateTypes` map of the source). -/
inductive IntegratedStateType where
  | hybrid
  | translational
  | rotational
  | bodyMass
  | custom
deriving DecidableEq, Repr

/-- `propagators::TranslationalPropagatorType` (the tags of the
`translationalPropagatorTypes` map of the source). -/
inductive TranslationalPropagatorType where
  | cowell
  | encke
  | gaussKeplerian
  | gaussModifiedEquinoctial
deriving DecidableEq, Repr

/-- Acceleration-model settings map: opaque to this layer, read and written
verbatim under its configuration key. -/
abbrev AccelMap := List (String × String)

/-- Mass-rate-model settings map: opaque to this layer. -/
abbrev MassRateMap := List (String × String)

/-- Torque-model settings map: opaque to this layer. -/
abbrev TorqueMap := List (String × String)

/-- `propagators::PropagationTerminationSettings` and its subclasses:
a fixed-epoch condition (`PropagationTimeTerminationSettings`, whose epoch is
`none` for the `TUDAT_NAN` placeholder), a dependent-variable condition
(`PropagationDependentVariableTerminationSettings`, payload opaque here), or a
hybrid condition (`PropagationHybridTerminationSettings`) owning an ordered
child list and a fulfillment flag (`true` = stop when ANY child is met). -/
inductive TermCond where
  | time (epoch : Option ℚ)
  | dependentVariable (id : String)
  | hybridCond (children : List TermCond) (fulfillAny : Bool)

/-- Whether a termination condition is a fixed-epoch
(`PropagationTimeTerminationSettings`) condition: the successful
`dynamic_pointer_cast` test used throughout the source. -/
def isTimeCondition : TermCond → Bool
  | .time _ => true
  | _ => false

/-- The scan of the source's `from_json (MultiTypePropagatorSettings)`
(lines 339-348): walks the user condition's direct child list, not
recursively, looking for a fixed-epoch condition.  A non-hybrid condition has
no child list, so the scan finds nothing there. -/
def hasDirectTimeChild : TermCond → Bool
  | .hybridCond cs _ => cs.any isTimeCondition
  | _ => false

/-- The termination-composition logic of `from_json (MultiTypePropagatorSettings)`
(propagator.h lines 328-371), taking the already-decoded optional user
condition and the optional `finalEpoch` field.  When neither is available the
source's `getValue< double >( jsonObject, Keys::finalEpoch )` raises; its
error identity (raised inside `valueAccess.h`, not part of this layer) is
surfaced per the specification as `MissingTerminationError`. -/
def composeTermination : Option TermCond → Option ℚ → Except Error TermCond
  | none, none => .error .MissingTermination
  | none, some e => .ok (.time (some e))
  | some u, none => .ok u
  | some u, some e =>
    if hasDirectTimeChild u then .ok u
    else .ok (.hybridCond [u, .time (some e)] true)

mutual

/-- `json_interface::getTerminationEpoch` (propagator.h lines 198-228):
returns the epoch of a fixed-epoch condition directly; for a hybrid condition
recurses into the children in list order returning the first non-NaN result;
returns the `TUDAT_NAN` sentinel (here `none`) otherwise.  Total: no failure
path. -/
def getTerminationEpoch : TermCond → Option ℚ
  | .time e => e
  | .dependentVariable _ => none
  | .hybridCond cs _ => getTerminationEpochList cs

/-- The child loop of `getTerminationEpoch` (lines 216-224). -/
def getTerminationEpochList : List TermCond → Option ℚ
  | [] => none
  | c :: rest =>
    match getTerminationEpoch c with
    | some e => some e
    | none => getTerminationEpochList rest

end

mutual

/-- Whether a fixed-epoch condition occurs anywhere in a termination-condition
tree, at arbitrary nesting depth. -/
def hasTimeDescendant : TermCond → Bool
  | .time _ => true
  | .dependentVariable _ => false
  | .hybridCond cs _ => hasTimeDescendantList cs

/-- List form of `hasTimeDescendant`. -/
def hasTimeDescendantList : List TermCond → Bool
  | [] => false
  | c :: rest => hasTimeDescendant c || hasTimeDescendantList rest

end

/-- One entry of the `Keys::propagators` list of the configuration document:
the JSON fields read and written by the single-variant codec
(`Keys::Propagator::*`).  An absent key is `none`. -/
structure PropJson where
  integratedStateType : Option IntegratedStateType := none
  bodiesToPropagate : Option (List String) := none
  centralBodies : Option (List String) := none
  initialStates : Option (List ℚ) := none
  accelerations : Option AccelMap := none
  massRateModels : Option MassRateMap := none
  torques : Option TorqueMap := none
  propagatorType : Option TranslationalPropagatorType := none
deriving DecidableEq, Repr

/-- One entry of the `Keys::bodies` subtree: the per-body state fields read by
the per-body path of `determineInitialStates` (`Keys::Body::initialState`,
`Keys::Body::mass`, `Keys::Body::rotationalState`). -/
structure BodyJson where
  initialState : Option (List ℚ) := none
  mass : Option ℚ := none
  rotationalState : Option (List ℚ) := none
deriving DecidableEq, Repr

/-- The root configuration node as seen by `determineInitialStates`: the
`Keys::propagators` list, the `Keys::bodies` subtree, and the remaining
top-level fields it never touches (`finalEpoch` plus all other keys held
verbatim in `rest`). -/
structure MultiTypeJson where
  propagators : Option (List PropJson) := none
  bodies : List (String × BodyJson) := []
  finalEpoch : Option ℚ := none
  rest : List (String × String) := []
deriving DecidableEq, Repr

/-- `getValue` without a default (`valueAccess.h`): raises on an absent key. -/
def req {α : Type} : Option α → Except Error α
  | some a => .ok a
  | none => .error .UndefinedKey

/-- Modelled from the spec: `propagators::getSingleIntegrationSize`
(`propagationSettings.h`, not under `src/`) gives the per-body block size for
a state-type tag — 6 scalars for translational position+velocity (spec §8), 1
for a scalar mass, 7 for a rotational state vector. -/
def getSingleIntegrationSize : IntegratedStateType → Nat
  | .translational => 6
  | .bodyMass => 1
  | .rotational => 7
  | _ => 0

/-- The body JSON keys named by `getAssociatedKey`. -/
inductive StateKey where
  | initialState
  | mass
  | rotationalState
deriving DecidableEq, Repr

/-- `json_interface::getAssociatedKey` (propagator.h lines 38-52): the body
JSON key holding the per-body state for an integrated state type; the default
branch of the switch raises. -/
def getAssociatedKey : IntegratedStateType → Except Error StateKey
  | .translational => .ok .initialState
  | .bodyMass => .ok .mass
  | .rotational => .ok .rotationalState
  | _ => .error .UnknownTag

/-- The single-variant settings records produced by the codec: the three
concrete `SingleArcPropagatorSettings` subclasses it constructs
(`TranslationalStatePropagatorSettings`, `MassPropagatorSettings`,
`RotationalStatePropagatorSettings`), with the fields the codec reads and
writes. -/
inductive SingleArcSettings where
  | translational (centralBodies : List String) (accelerations : AccelMap)
      (bodiesToPropagate : List String) (initialStates : List ℚ)
      (termination : TermCond) (propagator : TranslationalPropagatorType)
  | massVariant (bodiesToPropagate : List String) (massRateModels : MassRateMap)
      (initialStates : List ℚ) (termination : TermCond)
  | rotational (torqueModels : TorqueMap) (bodiesToPropagate : List String)
      (initialStates : List ℚ) (termination : TermCond)

/-- `getStateType()` of a settings record. -/
def getStateType : SingleArcSettings → IntegratedStateType
  | .translational .. => .translational
  | .massVariant .. => .bodyMass
  | .rotational .. => .rotational

/-- `getInitialStates()` of a settings record. -/
def getInitialStates : SingleArcSettings → List ℚ
  | .translational _ _ _ is _ _ => is
  | .massVariant _ _ is _ => is
  | .rotational _ _ is _ => is

/-- The propagated-body list of a settings record. -/
def getBodiesToPropagate : SingleArcSettings → List String
  | .translational _ _ btp _ _ _ => btp
  | .massVariant btp _ _ _ => btp
  | .rotational _ btp _ _ => btp

/-- The termination condition stored in a settings record. -/
def getTermination : SingleArcSettings → TermCond
  | .translational _ _ _ _ t _ => t
  | .massVariant _ _ _ t => t
  | .rotational _ _ _ t => t

/-- Modelled from the spec: the `TranslationalStatePropagatorSettings`
constructor (`propagationSettings.h`, not under `src/`) enforces the
invariant that the initial-state vector length equals the per-body block size
times the number of propagated bodies, rejecting violating inputs with a
`TypeMismatchError` rather than truncating (spec §3, §8). -/
def mkTranslationalSettings (centralBodies : List String) (accelerations : AccelMap)
    (bodiesToPropagate : List String) (initialStates : List ℚ)
    (termination : TermCond) (propagator : TranslationalPropagatorType) :
    Except Error SingleArcSettings :=
  if initialStates.length =
      getSingleIntegrationSize .translational * bodiesToPropagate.length then
    .ok (.translational centralBodies accelerations bodiesToPropagate
          initialStates termination propagator)
  else .error .TypeMismatch

/-- Modelled from the spec: the `MassPropagatorSettings` constructor
(`propagationSettings.h`, not under `src/`), with the same length invariant
(block size 1). -/
def mkMassSettings (bodiesToPropagate : List String) (massRateModels : MassRateMap)
    (initialStates : List ℚ) (termination : TermCond) :
    Except Error SingleArcSettings :=
  if initialStates.length = getSingleIntegrationSize .bodyMass * bodiesToPropagate.length then
    .ok (.massVariant bodiesToPropagate massRateModels initialStates termination)
  else .error .TypeMismatch

/-- Modelled from the spec: the `RotationalStatePropagatorSettings` constructor
(`propagationSettings.h`, not under `src/`), with the same length invariant
(block size 7). -/
def mkRotationalSettings (torqueModels : TorqueMap) (bodiesToPropagate : List String)
    (initialStates : List ℚ) (termination : TermCond) :
    Except Error SingleArcSettings :=
  if initialStates.length = getSingleIntegrationSize .rotational * bodiesToPropagate.length then
    .ok (.rotational torqueModels bodiesToPropagate initialStates termination)
  else .error .TypeMismatch

/-- `from_json (SingleArcPropagatorSettings)` (propagator.h lines 451-522),
in source order: the tag defaults to `translational`; `bodiesToPropagate` and
`initialStates` are read without a default; a `TUDAT_NAN` fixed-epoch
placeholder is used as termination; the switch then dispatches on the tag,
with `hybrid` and the `handleUnimplementedEnumValue` default branch (tags in
`unsupportedIntegratedStateTypes`) failing per the specification with
`UnsupportedVariantError`.  The two total reads of the source — the defaulted
tag read (line 461) and the `TUDAT_NAN` placeholder construction (line 473) —
are inlined at their use sites. -/
def singleArcFromJson (j : PropJson) : Except Error SingleArcSettings :=
  match req j.bodiesToPropagate with
  | .error e => .error e
  | .ok bodiesToPropagate =>
    match req j.initialStates with
    | .error e => .error e
    | .ok initialStates =>
      match j.integratedStateType.getD .translational with
      | .translational =>
        match req j.centralBodies with
        | .error e => .error e
        | .ok centralBodies =>
          match req j.accelerations with
          | .error e => .error e
          | .ok accelerations =>
            mkTranslationalSettings centralBodies accelerations bodiesToPropagate
              initialStates (TermCond.time none) (j.propagatorType.getD .cowell)
      | .bodyMass =>
        match req j.massRateModels with
        | .error e => .error e
        | .ok massRateModels =>
          mkMassSettings bodiesToPropagate massRateModels initialStates (TermCond.time none)
      | .rotational =>
        match req j.torques with
        | .error e => .error e
        | .ok torques =>
          mkRotationalSettings torques bodiesToPropagate initialStates (TermCond.time none)
      | .hybrid => .error .UnsupportedVariant
      | .custom => .error .UnsupportedVariant

/-- `to_json (SingleArcPropagatorSettings)` (propagator.h lines 386-448):
always writes the state-type tag, writes the initial states only when the
stored vector has more than zero rows, then dispatches on the tag to emit the
variant-specific fields. -/
def singleArcToJson (s : SingleArcSettings) : PropJson :=
  let base : PropJson :=
    { integratedStateType := some (getStateType s)
      initialStates :=
        if (getInitialStates s).length > 0 then some (getInitialStates s) else none }
  match s with
  | .translational centralBodies accelerations bodiesToPropagate _ _ propagator =>
    { base with
      propagatorType := some propagator
      centralBodies := some centralBodies
      bodiesToPropagate := some bodiesToPropagate
      accelerations := some accelerations }
  | .massVariant bodiesToPropagate massRateModels _ _ =>
    { base with
      bodiesToPropagate := some bodiesToPropagate
      massRateModels := some massRateModels }
  | .rotational torqueModels bodiesToPropagate _ _ =>
    { base with
      bodiesToPropagate := some bodiesToPropagate
      torques := some torqueModels }

/-! ## Initial-state resolution (`determineInitialStates`, propagator.h lines 66-158)

The body/ephemeris store is an external collaborator (spec §6); it is passed
in as two oracle functions: `batchQuery`, the one-shot
`getInitialStatesOfBodies` lookup used by the fast path, and `bodyEphem`, the
per-central-body state lookup used by `getCartesianState` in the per-body
path.  Both may fail with any `Error`, in particular
`EphemerisUnavailableError`. -/

/-- Association lookup in the `Keys::bodies` subtree. -/
def lookupBody (bodies : List (String × BodyJson)) (name : String) : Option BodyJson :=
  (bodies.find? (fun kv => kv.1 == name)).map (·.2)

/-- The generic `getValue` read of `Keys::bodies / bodyName / stateKey`
(propagator.h lines 145-146): a scalar mass field is read as a length-one
vector. -/
def readBodyStateField (b : BodyJson) : StateKey → Option (List ℚ)
  | .initialState => b.initialState
  | .mass => b.mass.map (fun m => [m])
  | .rotationalState => b.rotationalState

/-- Modelled from the spec: `json_interface::getCartesianState`
(`Tudat/JsonInterface/Propagation/state.h`, not under `src/`): combines the
body-specific initial-state configuration field with the named central body's
state (via ephemeris) into a central-body-relative vector, and fails with
`UnresolvableInitialStateError` when the body-specific field is absent and
the ephemeris is unavailable (spec §4.3).  The body-object lookup and its
ephemeris query are modelled as the single oracle result `centralState`,
consulted only when the configuration field is absent. -/
def getCartesianState (bodyField : Option (List ℚ))
    (centralState : Except Error (List ℚ)) : Except Error (List ℚ) :=
  match bodyField with
  | some s => .ok s
  | none =>
    match centralState with
    | .ok s => .ok s
    | .error _ => .error .UnresolvableInitialState

/-- The loop body of the per-body path (propagator.h lines 131-149): the state
segment contributed by the `i`-th propagated body. -/
def resolveBodyState (j : MultiTypeJson) (bodyEphem : String → Except Error (List ℚ))
    (tag : IntegratedStateType) (stateKey : StateKey) (p : PropJson)
    (i : Nat) (bodyName : String) : Except Error (List ℚ) :=
  if tag = .translational then
    match req p.centralBodies with
    | .error e => .error e
    | .ok centralBodies =>
      match centralBodies.get? i with
      | none => .error .OutOfRange
      | some centralName =>
        getCartesianState ((lookupBody j.bodies bodyName).bind (·.initialState))
          (bodyEphem centralName)
  else
    match (lookupBody j.bodies bodyName).bind (readBodyStateField · stateKey) with
    | some v => .ok v
    | none => .error .UndefinedKey

/-- The per-body loop (propagator.h lines 131-149), collecting the per-body
segments in bodies-to-propagate order. -/
def resolveSegments (j : MultiTypeJson) (bodyEphem : String → Except Error (List ℚ))
    (tag : IntegratedStateType) (stateKey : StateKey) (p : PropJson) :
    List String → Nat → Except Error (List (List ℚ))
  | [], _ => .ok []
  | name :: rest, i =>
    match resolveBodyState j bodyEphem tag stateKey p i name with
    | .error e => .error e
    | .ok s =>
      match resolveSegments j bodyEphem tag stateKey p rest (i + 1) with
      | .error e => .error e
      | .ok ss => .ok (s :: ss)

/-- The per-propagator step of the per-body path (propagator.h lines 109-153):
entries already carrying an explicit `initialStates` field are left untouched;
for the rest, the concatenated per-body segments are written into the
previously absent field. -/
def perBodyResolve (j : MultiTypeJson) (bodyEphem : String → Except Error (List ℚ))
    (p : PropJson) : Except Error PropJson :=
  if p.initialStates.isSome then .ok p
  else
    match getAssociatedKey (p.integratedStateType.getD .translational) with
    | .error e => .error e
    | .ok stateKey =>
      match req p.bodiesToPropagate with
      | .error e => .error e
      | .ok bodiesToPropagate =>
        match resolveSegments j bodyEphem (p.integratedStateType.getD .translational)
            stateKey p bodiesToPropagate 0 with
        | .error e => .error e
        | .ok segments => .ok { p with initialStates := some segments.flatten }

/-- The per-body path over the whole propagator list (the
`for ( nlohmann::json& jsonPropagator : jsonPropagators )` loop). -/
def perBodyPass (j : MultiTypeJson) (bodyEphem : String → Except Error (List ℚ)) :
    List PropJson → Except Error (List PropJson)
  | [] => .ok []
  | p :: rest =>
    match perBodyResolve j bodyEphem p with
    | .error e => .error e
    | .ok p1 =>
      match perBodyPass j bodyEphem rest with
      | .error e => .error e
      | .ok rest1 => .ok (p1 :: rest1)

/-- The ephemeris fast path (propagator.h lines 80-104): runs only on a
single-entry propagator list whose entry lacks an explicit `initialStates`
field and whose tag (defaulted to translational) is translational; the
`try { ... } catch ( ... ) { }` block silently absorbs every failure of the
batched query, including absent `bodiesToPropagate`/`centralBodies` keys.
Returns the updated list when the query succeeded, `none` otherwise. -/
def fastPathAttempt (ps : List PropJson)
    (batchQuery : List String → List String → Except Error (List ℚ)) :
    Option (List PropJson) :=
  match ps with
  | [p] =>
    if p.initialStates.isSome then none
    else if p.integratedStateType.getD .translational = .translational then
      match p.bodiesToPropagate, p.centralBodies with
      | some btp, some cb =>
        match batchQuery btp cb with
        | .ok states => some [{ p with initialStates := some states }]
        | .error _ => none
      | _, _ => none
    else none
  | _ => none

/-- The guard of the fast path: exactly one propagator entry, no explicit
initial-state field, translational state-type tag. -/
def fastPathGuard (ps : List PropJson) : Bool :=
  match ps with
  | [p] =>
    p.initialStates.isNone && (p.integratedStateType.getD .translational == .translational)
  | _ => false

/-- `json_interface::determineInitialStates` (propagator.h lines 66-158):
reads the propagator list (`jsonObject.at` raises on an absent key), attempts
the ephemeris fast path, falls back to the per-body path when the fast path
did not apply or failed, and finally writes the list back under
`Keys::propagators`. -/
def determineInitialStates (j : MultiTypeJson)
    (batchQuery : List String → List String → Except Error (List ℚ))
    (bodyEphem : String → Except Error (List ℚ)) : Except Error MultiTypeJson :=
  match req j.propagators with
  | .error e => .error e
  | .ok ps =>
    match fastPathAttempt ps batchQuery with
    | some ps1 => .ok { j with propagators := some ps1 }
    | none =>
      match perBodyPass j bodyEphem ps with
      | .error e => .error e
      | .ok ps1 => .ok { j with propagators := some ps1 }

/-- Frame relation between an input propagator entry and the corresponding
output entry of `determineInitialStates`: every field except `initialStates`
is unchanged, and `initialStates` itself is unchanged whenever it was already
present in the input. -/
def framePreserves (p p1 : PropJson) : Prop :=
  p1.integratedStateType = p.integratedStateType ∧
  p1.bodiesToPropagate = p.bodiesToPropagate ∧
  p1.centralBodies = p.centralBodies ∧
  p1.accelerations = p.accelerations ∧
  p1.massRateModels = p.massRateModels ∧
  p1.torques = p.torques ∧
  p1.propagatorType = p.propagatorType ∧
  (p.initialStates.isSome → p1.initialStates = p.initialStates)

/-! ## Dependent-variable deduplication
(`resetDependentVariableSaveSettings`, propagator.h lines 166-196) -/

/-- The fields of a `SingleDependentVariableSaveSettings` descriptor from
which its canonical identifier is derived. -/
structure DependentVar where
  variableType : String
  relativeBody : String
  secondaryBody : String
deriving DecidableEq, Repr

/-- A `propagators::VariableSettings` entry of an export spec: either a
dependent-variable descriptor (a `SingleDependentVariableSaveSettings`, the
kind kept by the deduplicator) or a variable of another kind (the
`dynamic_pointer_cast` fails and the entry is skipped). -/
inductive VariableSettings where
  | dependentVar (d : DependentVar)
  | independentVar (name : String)
deriving DecidableEq, Repr

/-- An `ExportSettings` object: the ordered `variables_` list it exposes (field `variableList`). -/
structure ExportSettings where
  variableList : List VariableSettings
deriving DecidableEq, Repr

/-- Modelled from the spec: `getVariableId`
(`Tudat/JsonInterface/Propagation/variable.h`, not under `src/`) derives the
canonical identifier string of a descriptor from its own fields (spec §4.4),
in the shape of the spec's examples `altitude(Earth,Moon)` and `mass(Moon)`. -/
def getVariableId (d : DependentVar) : String :=
  if d.secondaryBody = "" then d.variableType ++ "(" ++ d.relativeBody ++ ")"
  else d.variableType ++ "(" ++ d.relativeBody ++ "," ++ d.secondaryBody ++ ")"

/-- The `dynamic_pointer_cast< SingleDependentVariableSaveSettings >` test. -/
def asDependentVariable : VariableSettings → Option DependentVar
  | .dependentVar d => some d
  | .independentVar _ => none

/-- The inner-loop body of `resetDependentVariableSaveSettings` (propagator.h
lines 178-191): a dependent variable is appended, together with its
identifier, only when the identifier has not been seen before. -/
def addVariable (acc : List String × List DependentVar) (v : VariableSettings) :
    List String × List DependentVar :=
  match asDependentVariable v with
  | none => acc
  | some d =>
    if acc.1.contains (getVariableId d) then acc
    else (acc.1 ++ [getVariableId d], acc.2 ++ [d])

/-- `resetDependentVariableSaveSettings` (propagator.h lines 166-196): folds
over the export specs in order and over each spec's variables in order,
keeping the first occurrence of each canonical identifier.  (The surrounding
write into the propagator settings object stores exactly this list.) -/
def resetDependentVariableSaveSettings (specs : List ExportSettings) : List DependentVar :=
  (specs.foldl (fun acc s => s.variableList.foldl addVariable acc) ([], [])).2

/-- Specification form of the deduplication loop: keep each descriptor whose
canonical identifier was not seen before, in order.  Related to the source's
accumulating fold by `resetDependentVariableSaveSettings_eq_dedupKeyed`. -/
def dedupKeyed : List String → List DependentVar → List DependentVar
  | _, [] => []
  | seen, d :: rest =>
    if seen.contains (getVariableId d) then dedupKeyed seen rest
    else d :: dedupKeyed (getVariableId d :: seen) rest

/-! ## Helper lemmas -/

/-- The child loop of `getTerminationEpoch` returns the first non-`none`
recursive result, in list order. -/
theorem getTerminationEpochList_eq_findSome (cs : List TermCond) :
    getTerminationEpochList cs = cs.findSome? getTerminationEpoch := by
  induction cs with
  | nil => rfl
  | cons c rest ih =>
    simp only [getTerminationEpochList, List.findSome?_cons, ih]
    cases getTerminationEpoch c <;> rfl

mutual

/-- A tree with no fixed-epoch condition anywhere yields the sentinel. -/
theorem epoch_none_of_no_time (t : TermCond) (h : hasTimeDescendant t = false) :
    getTerminationEpoch t = none := by
  match t with
  | .time e => simp [hasTimeDescendant] at h
  | .dependentVariable i => rfl
  | .hybridCond cs b =>
    simp only [hasTimeDescendant] at h
    simpa only [getTerminationEpoch] using epoch_none_of_no_time_list cs h

/-- List form of `epoch_none_of_no_time`. -/
theorem epoch_none_of_no_time_list (cs : List TermCond)
    (h : hasTimeDescendantList cs = false) : getTerminationEpochList cs = none := by
  match cs with
  | [] => rfl
  | c :: rest =>
    simp only [hasTimeDescendantList, Bool.or_eq_false_iff] at h
    have h1 := epoch_none_of_no_time c h.1
    have h2 := epoch_none_of_no_time_list rest h.2
    simp only [getTerminationEpochList, h1, h2]

end

/-- Every settings record produced by `singleArcFromJson` satisfies the
initial-state length invariant and carries the `TUDAT_NAN` fixed-epoch
placeholder termination. -/
theorem singleArcFromJson_ok_shape {j : PropJson} {r : SingleArcSettings}
    (h : singleArcFromJson j = .ok r) :
    (getInitialStates r).length =
      getSingleIntegrationSize (getStateType r) * (getBodiesToPropagate r).length ∧
    getTermination r = .time none := by
  cases hbt : j.bodiesToPropagate with
  | none => simp [singleArcFromJson, req, hbt] at h
  | some btp =>
  cases his : j.initialStates with
  | none => simp [singleArcFromJson, req, hbt, his] at h
  | some is =>
  cases htag : j.integratedStateType.getD .translational with
  | hybrid => simp [singleArcFromJson, req, hbt, his, htag] at h
  | custom => simp [singleArcFromJson, req, hbt, his, htag] at h
  | translational =>
    cases hcb : j.centralBodies with
    | none => simp [singleArcFromJson, req, hbt, his, htag, hcb] at h
    | some cb =>
    cases hacc : j.accelerations with
    | none => simp [singleArcFromJson, req, hbt, his, htag, hcb, hacc] at h
    | some acc =>
      simp only [singleArcFromJson, req, hbt, his, htag, hcb, hacc,
        mkTranslationalSettings] at h
      split at h
      · cases h
        exact ⟨by assumption, rfl⟩
      · cases h
  | bodyMass =>
    cases hmr : j.massRateModels with
    | none => simp [singleArcFromJson, req, hbt, his, htag, hmr] at h
    | some mr =>
      simp only [singleArcFromJson, req, hbt, his, htag, hmr, mkMassSettings] at h
      split at h
      · cases h
        exact ⟨by assumption, rfl⟩
      · cases h
  | rotational =>
    cases htq : j.torques with
    | none => simp [singleArcFromJson, req, hbt, his, htag, htq] at h
    | some tq =>
      simp only [singleArcFromJson, req, hbt, his, htag, htq, mkRotationalSettings] at h
      split at h
      · cases h
        exact ⟨by assumption, rfl⟩
      · cases h

/-- Re-decoding the encoding succeeds for any record satisfying the decode
invariants whose initial-state vector is nonempty. -/
theorem encode_decode_of_shape {r : SingleArcSettings}
    (hlen : (getInitialStates r).length =
      getSingleIntegrationSize (getStateType r) * (getBodiesToPropagate r).length)
    (hterm : getTermination r = .time none)
    (hne : getInitialStates r ≠ []) :
    singleArcFromJson (singleArcToJson r) = .ok r := by
  cases r with
  | translational cb acc btp is t prop =>
    simp only [getTermination] at hterm
    subst hterm
    simp only [getInitialStates, getStateType, getBodiesToPropagate,
      getSingleIntegrationSize] at hlen hne
    have hpos : is.length > 0 := List.length_pos.mpr hne
    have hbtp : 0 < btp.length := by omega
    simp [singleArcFromJson, singleArcToJson, req, hpos, hbtp, hlen,
      mkTranslationalSettings, getInitialStates, getStateType, getSingleIntegrationSize]
  | massVariant btp mr is t =>
    simp only [getTermination] at hterm
    subst hterm
    simp only [getInitialStates, getStateType, getBodiesToPropagate,
      getSingleIntegrationSize] at hlen hne
    have hpos : is.length > 0 := List.length_pos.mpr hne
    have hbtp : 0 < btp.length := by omega
    simp [singleArcFromJson, singleArcToJson, req, hpos, hbtp, hlen,
      mkMassSettings, getInitialStates, getStateType, getSingleIntegrationSize]
  | rotational tq btp is t =>
    simp only [getTermination] at hterm
    subst hterm
    simp only [getInitialStates, getStateType, getBodiesToPropagate,
      getSingleIntegrationSize] at hlen hne
    have hpos : is.length > 0 := List.length_pos.mpr hne
    have hbtp : 0 < btp.length := by omega
    simp [singleArcFromJson, singleArcToJson, req, hpos, hbtp, hlen,
      mkRotationalSettings, getInitialStates, getStateType, getSingleIntegrationSize]

/-! ## Claim theorems -/

/-- C1 -/
theorem composeTermination_four_cases :
    (composeTermination none none = .error .MissingTermination) ∧
    (∀ e : ℚ, composeTermination none (some e) = .ok (.time (some e))) ∧
    (∀ (u : TermCond) (oe : Option ℚ), (oe = none ∨ hasDirectTimeChild u = true) →
      composeTermination (some u) oe = .ok u) ∧
    (∀ (u : TermCond) (e : ℚ), hasDirectTimeChild u = false →
      composeTermination (some u) (some e) = .ok (.hybridCond [u, .time (some e)] true)) := by
  refine ⟨rfl, fun e => rfl, ?_, ?_⟩
  · rintro u oe (rfl | h)
    · rfl
    · cases oe with
      | none => rfl
      | some e => simp [composeTermination, h]
  · intro u e h
    simp [composeTermination, h]

/-- C1 witness -/
theorem composeTermination_four_cases_witness :
    composeTermination (some (.hybridCond [.dependentVariable "altitude"] true)) none =
      .ok (.hybridCond [.dependentVariable "altitude"] true) ∧
    composeTermination (some (.hybridCond [.dependentVariable "altitude"] true)) (some 10) =
      .ok (.hybridCond [.hybridCond [.dependentVariable "altitude"] true, .time (some 10)] true) ∧
    composeTermination (some (.hybridCond [.time (some 4)] true)) (some 10) =
      .ok (.hybridCond [.time (some 4)] true) :=
  ⟨composeTermination_four_cases.2.2.1 _ none (Or.inl rfl),
   composeTermination_four_cases.2.2.2 _ 10 rfl,
   composeTermination_four_cases.2.2.1 _ (some 10) (Or.inr rfl)⟩

/-- C3 -/
theorem getTerminationEpoch_spec :
    (∀ e : Option ℚ, getTerminationEpoch (.time e) = e) ∧
    (∀ cs b, getTerminationEpoch (.hybridCond cs b) = cs.findSome? getTerminationEpoch) ∧
    (getTerminationEpoch (.hybridCond [.time (some 5), .time (some 3)] true) = some 5) ∧
    (∀ t : TermCond, hasTimeDescendant t = false → getTerminationEpoch t = none) :=
  ⟨fun _ => rfl,
   fun cs _ => getTerminationEpochList_eq_findSome cs,
   rfl,
   epoch_none_of_no_time⟩

/-- C3 witness -/
theorem getTerminationEpoch_spec_witness :
    hasTimeDescendant (.hybridCond [.dependentVariable "x",
        .hybridCond [.dependentVariable "y"] false] true) = false ∧
    getTerminationEpoch (.hybridCond [.dependentVariable "x",
        .hybridCond [.dependentVariable "y"] false] true) = none :=
  ⟨rfl, getTerminationEpoch_spec.2.2.2 _ rfl⟩

/-- C2 amended -/
theorem singleArc_roundTrip (j : PropJson) (r : SingleArcSettings)
    (h : singleArcFromJson j = .ok r) (hne : getInitialStates r ≠ []) :
    singleArcFromJson (singleArcToJson r) = .ok r :=
  encode_decode_of_shape (singleArcFromJson_ok_shape h).1 (singleArcFromJson_ok_shape h).2 hne

/-- C2 counterexample -/
theorem singleArc_roundTrip_counterexample :
    singleArcFromJson
      { bodiesToPropagate := some [], initialStates := some [],
        centralBodies := some [], accelerations := some [] } =
      .ok (.translational [] [] [] [] (.time none) .cowell) ∧
    singleArcFromJson
      (singleArcToJson (.translational [] [] [] [] (.time none) .cowell)) =
      .error .UndefinedKey ∧
    (Except.error Error.UndefinedKey : Except Error SingleArcSettings) ≠
      .ok (.translational [] [] [] [] (.time none) .cowell) := by
  refine ⟨rfl, rfl, ?_⟩
  intro h
  cases h

/-- C2 witness -/
theorem singleArc_roundTrip_witness :
    singleArcFromJson
      { bodiesToPropagate := some ["Sat"], initialStates := some [1, 2, 3, 4, 5, 6],
        centralBodies := some ["Earth"], accelerations := some [("Sat", "Earth")] } =
      .ok (.translational ["Earth"] [("Sat", "Earth")] ["Sat"] [1, 2, 3, 4, 5, 6]
            (.time none) .cowell) ∧
    getInitialStates (.translational ["Earth"] [("Sat", "Earth")] ["Sat"]
      [1, 2, 3, 4, 5, 6] (.time none) .cowell) ≠ [] ∧
    singleArcFromJson (singleArcToJson (.translational ["Earth"] [("Sat", "Earth")]
      ["Sat"] [1, 2, 3, 4, 5, 6] (.time none) .cowell)) =
      .ok (.translational ["Earth"] [("Sat", "Earth")] ["Sat"] [1, 2, 3, 4, 5, 6]
            (.time none) .cowell) :=
  ⟨rfl, by simp [getInitialStates],
   singleArc_roundTrip
     { bodiesToPropagate := some ["Sat"], initialStates := some [1, 2, 3, 4, 5, 6],
       centralBodies := some ["Earth"], accelerations := some [("Sat", "Earth")] }
     (.translational ["Earth"] [("Sat", "Earth")] ["Sat"] [1, 2, 3, 4, 5, 6]
       (.time none) .cowell) rfl (by simp [getInitialStates])⟩

/-- C5 -/
theorem unsupported_tag_rejected (j : PropJson)
    (htag : j.integratedStateType = some .hybrid ∨ j.integratedStateType = some .custom)
    (hbt : j.bodiesToPropagate.isSome) (his : j.initialStates.isSome) :
    singleArcFromJson j = .error .UnsupportedVariant := by
  obtain ⟨btp, hb⟩ := Option.isSome_iff_exists.mp hbt
  obtain ⟨is, hi⟩ := Option.isSome_iff_exists.mp his
  rcases htag with ht | ht <;>
    simp [singleArcFromJson, req, hb, hi, ht]

/-- C5 witness -/
theorem unsupported_tag_rejected_witness :
    singleArcFromJson
      { integratedStateType := some .hybrid, bodiesToPropagate := some ["Sat"],
        initialStates := some [] } = .error .UnsupportedVariant ∧
    singleArcFromJson
      { integratedStateType := some .custom, bodiesToPropagate := some ["Sat"],
        initialStates := some [] } = .error .UnsupportedVariant :=
  ⟨unsupported_tag_rejected _ (Or.inl rfl) rfl rfl,
   unsupported_tag_rejected _ (Or.inr rfl) rfl rfl⟩

/-- C6 amended -/
theorem encode_field_presence (s : SingleArcSettings) :
    (singleArcToJson s).integratedStateType = some (getStateType s) ∧
    ((singleArcToJson s).initialStates = none ↔ getInitialStates s = []) := by
  cases s with
  | translational cb acc btp is t prop =>
    refine ⟨rfl, ?_⟩
    cases is <;> simp [singleArcToJson, getInitialStates]
  | massVariant btp mr is t =>
    refine ⟨rfl, ?_⟩
    cases is <;> simp [singleArcToJson, getInitialStates]
  | rotational tq btp is t =>
    refine ⟨rfl, ?_⟩
    cases is <;> simp [singleArcToJson, getInitialStates]

/-- C6 counterexample -/
theorem encode_tag_counterexample :
    getStateType (.translational ["Earth"] [] ["Sat"] [1, 2, 3, 4, 5, 6]
      (.time none) .cowell) = .translational ∧
    (singleArcToJson (.translational ["Earth"] [] ["Sat"] [1, 2, 3, 4, 5, 6]
      (.time none) .cowell)).integratedStateType = some .translational ∧
    (singleArcToJson (.translational ["Earth"] [] ["Sat"] [1, 2, 3, 4, 5, 6]
      (.time none) .cowell)).integratedStateType ≠ none := by
  refine ⟨rfl, rfl, ?_⟩
  intro h
  cases h

/-- C7 -/
theorem initial_state_length_invariant :
    (∀ (j : PropJson) (r : SingleArcSettings), singleArcFromJson j = .ok r →
      (getInitialStates r).length =
        getSingleIntegrationSize (getStateType r) * (getBodiesToPropagate r).length) ∧
    singleArcFromJson
      { bodiesToPropagate := some ["A", "B", "C"],
        initialStates := some [0, 0, 0, 0, 0, 0, 0, 0, 0, 0, 0, 0, 0, 0, 0],
        centralBodies := some ["Sun", "Sun", "Sun"], accelerations := some [] } =
      .error .TypeMismatch :=
  ⟨fun _ _ h => (singleArcFromJson_ok_shape h).1, rfl⟩

/-- C7 witness -/
theorem initial_state_length_invariant_witness :
    singleArcFromJson
      { bodiesToPropagate := some ["A", "B", "C"],
        initialStates := some [0, 0, 0, 0, 0, 0, 0, 0, 0, 0, 0, 0, 0, 0, 0, 0, 0, 0],
        centralBodies := some ["Sun", "Sun", "Sun"], accelerations := some [] } =
      .ok (.translational ["Sun", "Sun", "Sun"] [] ["A", "B", "C"]
            [0, 0, 0, 0, 0, 0, 0, 0, 0, 0, 0, 0, 0, 0, 0, 0, 0, 0] (.time none) .cowell) ∧
    (getInitialStates (.translational ["Sun", "Sun", "Sun"] [] ["A", "B", "C"]
        [0, 0, 0, 0, 0, 0, 0, 0, 0, 0, 0, 0, 0, 0, 0, 0, 0, 0] (.time none) .cowell)).length =
      getSingleIntegrationSize
          (getStateType (.translational ["Sun", "Sun", "Sun"] [] ["A", "B", "C"]
            [0, 0, 0, 0, 0, 0, 0, 0, 0, 0, 0, 0, 0, 0, 0, 0, 0, 0] (.time none) .cowell)) *
        (getBodiesToPropagate (.translational ["Sun", "Sun", "Sun"] [] ["A", "B", "C"]
          [0, 0, 0, 0, 0, 0, 0, 0, 0, 0, 0, 0, 0, 0, 0, 0, 0, 0] (.time none) .cowell)).length ∧
    (getInitialStates (.translational ["Sun", "Sun", "Sun"] [] ["A", "B", "C"]
        [0, 0, 0, 0, 0, 0, 0, 0, 0, 0, 0, 0, 0, 0, 0, 0, 0, 0] (.time none) .cowell)).length = 18 :=
  ⟨rfl,
   initial_state_length_invariant.1
     { bodiesToPropagate := some ["A", "B", "C"],
       initialStates := some [0, 0, 0, 0, 0, 0, 0, 0, 0, 0, 0, 0, 0, 0, 0, 0, 0, 0],
       centralBodies := some ["Sun", "Sun", "Sun"], accelerations := some [] }
     (.translational ["Sun", "Sun", "Sun"] [] ["A", "B", "C"]
       [0, 0, 0, 0, 0, 0, 0, 0, 0, 0, 0, 0, 0, 0, 0, 0, 0, 0] (.time none) .cowell) rfl,
   rfl⟩

/-- C10 -/
theorem decode_placeholder_termination (j : PropJson) (r : SingleArcSettings)
    (h : singleArcFromJson j = .ok r) :
    getTermination r = .time none ∧ getTerminationEpoch (getTermination r) = none := by
  have h2 := (singleArcFromJson_ok_shape h).2
  exact ⟨h2, by rw [h2]; rfl⟩

/-- C10 witness -/
theorem decode_placeholder_termination_witness :
    singleArcFromJson
      { integratedStateType := some .bodyMass, bodiesToPropagate := some ["Sat"],
        initialStates := some [500], massRateModels := some [("Sat", "custom")] } =
      .ok (.massVariant ["Sat"] [("Sat", "custom")] [500] (.time none)) ∧
    getTermination (.massVariant ["Sat"] [("Sat", "custom")] [500] (.time none)) =
      .time none ∧
    getTerminationEpoch (getTermination
      (.massVariant ["Sat"] [("Sat", "custom")] [500] (.time none))) = none := by
  refine ⟨rfl, ?_, ?_⟩
  · exact (decode_placeholder_termination
      { integratedStateType := some .bodyMass, bodiesToPropagate := some ["Sat"],
        initialStates := some [500], massRateModels := some [("Sat", "custom")] }
      (.massVariant ["Sat"] [("Sat", "custom")] [500] (.time none)) rfl).1
  · exact (decode_placeholder_termination
      { integratedStateType := some .bodyMass, bodiesToPropagate := some ["Sat"],
        initialStates := some [500], massRateModels := some [("Sat", "custom")] }
      (.massVariant ["Sat"] [("Sat", "custom")] [500] (.time none)) rfl).2
theorem contains_eq_of_mem_iff {seen seen' : List String}
    (h : ∀ s, s ∈ seen ↔ s ∈ seen') (x : String) :
    seen.contains x = seen'.contains x := by
  show List.elem x seen = List.elem x seen'
  by_cases hm : x ∈ seen
  · rw [List.elem_iff.mpr hm, List.elem_iff.mpr ((h x).mp hm)]
  · have h1 : List.elem x seen = false :=
      Bool.eq_false_iff.mpr (fun hx => hm (List.elem_iff.mp hx))
    have h2 : List.elem x seen' = false :=
      Bool.eq_false_iff.mpr (fun hx => hm ((h x).mpr (List.elem_iff.mp hx)))
    rw [h1, h2]

theorem fold_specs_eq (specs : List ExportSettings)
    (acc : List String × List DependentVar) :
    specs.foldl (fun a s => s.variableList.foldl addVariable a) acc =
      ((specs.map ExportSettings.variableList).flatten).foldl addVariable acc := by
  induction specs generalizing acc with
  | nil => rfl
  | cons s rest ih => simp [List.foldl_append, ih]

theorem dedupKeyed_congr {seen seen' : List String}
    (h : ∀ s, s ∈ seen ↔ s ∈ seen') (l : List DependentVar) :
    dedupKeyed seen l = dedupKeyed seen' l := by
  induction l generalizing seen seen' with
  | nil => rfl
  | cons d rest ih =>
    simp only [dedupKeyed, contains_eq_of_mem_iff h (getVariableId d)]
    by_cases hm : seen'.contains (getVariableId d) = true
    · rw [if_pos hm, if_pos hm]
      exact ih h
    · rw [if_neg hm, if_neg hm]
      refine congrArg (d :: ·) (ih ?_)
      intro s
      simp only [List.mem_cons]
      exact or_congr Iff.rfl (h s)



theorem foldl_addVariable_eq (vs : List VariableSettings) (ids : List String)
    (deps : List DependentVar) :
    (vs.foldl addVariable (ids, deps)).2 =
      deps ++ dedupKeyed ids (vs.filterMap asDependentVariable) := by
  induction vs generalizing ids deps with
  | nil => simp [dedupKeyed]
  | cons v rest ih =>
    cases hv : asDependentVariable v with
    | none =>
      simp only [List.foldl_cons, addVariable, hv, List.filterMap_cons, ih]
    | some d =>
      simp only [List.foldl_cons, addVariable, hv, List.filterMap_cons]
      by_cases hm : ids.contains (getVariableId d) = true
      · rw [if_pos hm]
        simp only [dedupKeyed, if_pos hm, ih]
      · rw [if_neg hm]
        simp only [dedupKeyed, if_neg hm, ih]
        rw [@dedupKeyed_congr (ids ++ [getVariableId d]) (getVariableId d :: ids)
          (fun s => by simp [List.mem_append, List.mem_cons, or_comm]) _]
        simp

theorem resetDependentVariableSaveSettings_eq (specs : List ExportSettings) :
    resetDependentVariableSaveSettings specs =
      dedupKeyed []
        (((specs.map ExportSettings.variableList).flatten).filterMap asDependentVariable) := by
  unfold resetDependentVariableSaveSettings
  rw [fold_specs_eq]
  simpa using foldl_addVariable_eq ((specs.map ExportSettings.variableList).flatten) [] []

theorem dedupKeyed_sublist (seen : List String) (l : List DependentVar) :
    (dedupKeyed seen l).Sublist l := by
  induction l generalizing seen with
  | nil => exact List.Sublist.refl []
  | cons d rest ih =>
    simp only [dedupKeyed]
    by_cases hm : seen.contains (getVariableId d) = true
    · rw [if_pos hm]
      exact (ih seen).cons d
    · rw [if_neg hm]
      exact (ih (getVariableId d :: seen)).cons₂ d

theorem not_seen_of_mem_dedupKeyed {seen : List String} {l : List DependentVar}
    {d : DependentVar} (h : d ∈ dedupKeyed seen l) : getVariableId d ∉ seen := by
  induction l generalizing seen with
  | nil => simp [dedupKeyed] at h
  | cons d0 rest ih =>
    simp only [dedupKeyed] at h
    by_cases hm : seen.contains (getVariableId d0) = true
    · rw [if_pos hm] at h
      exact ih h
    · rw [if_neg hm] at h
      rcases List.mem_cons.mp h with rfl | h2
      · exact fun hmem => hm (List.elem_iff.mpr hmem)
      · intro hmem
        exact ih h2 (List.mem_cons_of_mem _ hmem)

theorem dedupKeyed_pairwise (seen : List String) (l : List DependentVar) :
    (dedupKeyed seen l).Pairwise (fun a b => getVariableId a ≠ getVariableId b) := by
  induction l generalizing seen with
  | nil => exact List.Pairwise.nil
  | cons d0 rest ih =>
    simp only [dedupKeyed]
    by_cases hm : seen.contains (getVariableId d0) = true
    · rw [if_pos hm]
      exact ih seen
    · rw [if_neg hm]
      refine List.Pairwise.cons ?_ (ih (getVariableId d0 :: seen))
      intro b hb heq
      exact not_seen_of_mem_dedupKeyed hb (heq ▸ List.mem_cons_self _ _)

theorem mem_dedupKeyed_of_mem {seen : List String} {l : List DependentVar}
    {d : DependentVar} (h : d ∈ l) :
    getVariableId d ∈ seen ∨
      ∃ d2 ∈ dedupKeyed seen l, getVariableId d2 = getVariableId d := by
  induction l generalizing seen with
  | nil => simp at h
  | cons d0 rest ih =>
    simp only [dedupKeyed]
    by_cases hm : seen.contains (getVariableId d0) = true
    · rw [if_pos hm]
      rcases List.mem_cons.mp h with rfl | h2
      · exact Or.inl (List.elem_iff.mp hm)
      · exact ih h2
    · rw [if_neg hm]
      rcases List.mem_cons.mp h with rfl | h2
      · exact Or.inr ⟨d, List.mem_cons_self _ _, rfl⟩
      · rcases @ih (getVariableId d0 :: seen) h2 with hseen | ⟨d2, hd2, heq⟩
        · rcases List.mem_cons.mp hseen with heq0 | hseen2
          · exact Or.inr ⟨d0, List.mem_cons_self _ _, heq0.symm⟩
          · exact Or.inl hseen2
        · exact Or.inr ⟨d2, List.mem_cons_of_mem _ hd2, heq⟩

theorem find_eq_of_mem_dedupKeyed {seen : List String} {l : List DependentVar}
    {d2 : DependentVar} (h : d2 ∈ dedupKeyed seen l) :
    l.find? (fun x => getVariableId x == getVariableId d2) = some d2 := by
  induction l generalizing seen with
  | nil => simp [dedupKeyed] at h
  | cons d0 rest ih =>
    simp only [dedupKeyed] at h
    by_cases hm : seen.contains (getVariableId d0) = true
    · rw [if_pos hm] at h
      have hne : getVariableId d0 ≠ getVariableId d2 := by
        intro heq
        exact not_seen_of_mem_dedupKeyed h (heq ▸ List.elem_iff.mp hm)
      rw [List.find?_cons_of_neg _ (by simpa using hne)]
      exact ih h
    · rw [if_neg hm] at h
      rcases List.mem_cons.mp h with rfl | h2
      · rw [List.find?_cons_of_pos _ (by simp)]
      · have hne : getVariableId d0 ≠ getVariableId d2 := by
          intro heq
          exact not_seen_of_mem_dedupKeyed h2 (heq ▸ List.mem_cons_self _ _)
        rw [List.find?_cons_of_neg _ (by simpa using hne)]
        exact ih h2



/-- C8 -/
theorem dedup_dependent_variables_spec :
    (∀ specs : List ExportSettings,
      (resetDependentVariableSaveSettings specs).Sublist
        (((specs.map ExportSettings.variableList).flatten).filterMap asDependentVariable)) ∧
    (∀ specs : List ExportSettings,
      (resetDependentVariableSaveSettings specs).Pairwise
        (fun a b => getVariableId a ≠ getVariableId b)) ∧
    (∀ (specs : List ExportSettings) (d : DependentVar),
      d ∈ ((specs.map ExportSettings.variableList).flatten).filterMap asDependentVariable →
      ∃ d2 ∈ resetDependentVariableSaveSettings specs,
        getVariableId d2 = getVariableId d) ∧
    (∀ (specs : List ExportSettings) (d2 : DependentVar),
      d2 ∈ resetDependentVariableSaveSettings specs →
      (((specs.map ExportSettings.variableList).flatten).filterMap
        asDependentVariable).find? (fun x => getVariableId x == getVariableId d2) =
        some d2) ∧
    (resetDependentVariableSaveSettings
        [⟨[.dependentVar ⟨"altitude", "Earth", "Moon"⟩]⟩,
         ⟨[.dependentVar ⟨"altitude", "Earth", "Moon"⟩]⟩,
         ⟨[.dependentVar ⟨"mass", "Moon", ""⟩]⟩]).map getVariableId =
      ["altitude(Earth,Moon)", "mass(Moon)"] ∧
    (resetDependentVariableSaveSettings
        [⟨[.dependentVar ⟨"altitude", "Earth", "Moon"⟩]⟩,
         ⟨[.dependentVar ⟨"altitude", "Earth", "Moon"⟩]⟩,
         ⟨[.dependentVar ⟨"mass", "Moon", ""⟩]⟩]).length = 2 := by
  refine ⟨?_, ?_, ?_, ?_, by decide, by decide⟩
  · intro specs
    rw [resetDependentVariableSaveSettings_eq]
    exact dedupKeyed_sublist _ _
  · intro specs
    rw [resetDependentVariableSaveSettings_eq]
    exact dedupKeyed_pairwise _ _
  · intro specs d hd
    rw [resetDependentVariableSaveSettings_eq]
    rcases @mem_dedupKeyed_of_mem [] _ _ hd with hseen | hex
    · simp at hseen
    · exact hex
  · intro specs d2 hd2
    rw [resetDependentVariableSaveSettings_eq] at hd2
    exact find_eq_of_mem_dedupKeyed hd2

/-- C8 witness -/
theorem dedup_dependent_variables_spec_witness :
    (⟨"altitude", "Earth", "Moon"⟩ : DependentVar) ∈
      resetDependentVariableSaveSettings
        [⟨[.dependentVar ⟨"altitude", "Earth", "Moon"⟩]⟩,
         ⟨[.dependentVar ⟨"altitude", "Earth", "Moon"⟩]⟩,
         ⟨[.dependentVar ⟨"mass", "Moon", ""⟩]⟩] ∧
    List.find? (fun x => getVariableId x == getVariableId ⟨"altitude", "Earth", "Moon"⟩)
      (List.filterMap asDependentVariable
        ((([⟨[.dependentVar ⟨"altitude", "Earth", "Moon"⟩]⟩,
            ⟨[.dependentVar ⟨"altitude", "Earth", "Moon"⟩]⟩,
            ⟨[.dependentVar ⟨"mass", "Moon", ""⟩]⟩] :
              List ExportSettings).map ExportSettings.variableList).flatten)) =
      some ⟨"altitude", "Earth", "Moon"⟩ :=
  ⟨by decide,
   dedup_dependent_variables_spec.2.2.2.1
     [⟨[.dependentVar ⟨"altitude", "Earth", "Moon"⟩]⟩,
      ⟨[.dependentVar ⟨"altitude", "Earth", "Moon"⟩]⟩,
      ⟨[.dependentVar ⟨"mass", "Moon", ""⟩]⟩]
     ⟨"altitude", "Earth", "Moon"⟩ (by decide)⟩

theorem req_error_eq {α : Type} {o : Option α} {e : Error} (h : req o = .error e) :
    e = .UndefinedKey := by
  cases o <;> simp [req] at h
  exact h.symm

theorem req_ok_eq {α : Type} {o : Option α} {a : α} (h : req o = .ok a) :
    o = some a := by
  cases o <;> simp [req] at h
  rw [h]

theorem getCartesianState_error_eq {bf : Option (List ℚ)} {cs : Except Error (List ℚ)}
    {e : Error} (h : getCartesianState bf cs = .error e) :
    e = .UnresolvableInitialState := by
  unfold getCartesianState at h
  split at h
  · cases h
  · split at h
    · cases h
    · cases h
      rfl

theorem getAssociatedKey_error_eq {tag : IntegratedStateType} {e : Error}
    (h : getAssociatedKey tag = .error e) : e = .UnknownTag := by
  cases tag <;> simp [getAssociatedKey] at h <;> exact h.symm

theorem resolveBodyState_ne (j : MultiTypeJson) (be : String → Except Error (List ℚ))
    (tag : IntegratedStateType) (sk : StateKey) (p : PropJson) (i : Nat) (name : String) :
    resolveBodyState j be tag sk p i name ≠ .error .EphemerisUnavailable := by
  intro h
  unfold resolveBodyState at h
  split at h
  · split at h
    · cases h
      exact Error.noConfusion (req_error_eq (by assumption))
    · split at h
      · cases h
      · exact Error.noConfusion (getCartesianState_error_eq h)
  · split at h
    · cases h
    · cases h

theorem resolveSegments_ne (j : MultiTypeJson) (be : String → Except Error (List ℚ))
    (tag : IntegratedStateType) (sk : StateKey) (p : PropJson) :
    ∀ (names : List String) (i : Nat),
      resolveSegments j be tag sk p names i ≠ .error .EphemerisUnavailable := by
  intro names
  induction names with
  | nil =>
    intro i h
    cases h
  | cons name rest ih =>
    intro i h
    unfold resolveSegments at h
    split at h
    · cases h
      exact resolveBodyState_ne j be tag sk p i name (by assumption)
    · split at h
      · cases h
        exact ih (i + 1) (by assumption)
      · cases h

theorem perBodyResolve_ne (j : MultiTypeJson) (be : String → Except Error (List ℚ))
    (p : PropJson) : perBodyResolve j be p ≠ .error .EphemerisUnavailable := by
  intro h
  unfold perBodyResolve at h
  split at h
  · cases h
  · split at h
    · cases h
      exact Error.noConfusion (getAssociatedKey_error_eq (by assumption))
    · split at h
      · cases h
        exact Error.noConfusion (req_error_eq (by assumption))
      · split at h
        · cases h
          exact resolveSegments_ne _ _ _ _ _ _ _ (by assumption)
        · cases h

theorem perBodyPass_ne (j : MultiTypeJson) (be : String → Except Error (List ℚ)) :
    ∀ ps : List PropJson, perBodyPass j be ps ≠ .error .EphemerisUnavailable := by
  intro ps
  induction ps with
  | nil =>
    intro h
    cases h
  | cons p rest ih =>
    intro h
    unfold perBodyPass at h
    split at h
    · cases h
      exact perBodyResolve_ne j be p (by assumption)
    · split at h
      · cases h
        exact ih (by assumption)
      · cases h

theorem fastPathAttempt_none_of_guard_false (ps : List PropJson)
    (bq : List String → List String → Except Error (List ℚ))
    (hg : fastPathGuard ps = false) : fastPathAttempt ps bq = none := by
  cases ps with
  | nil => rfl
  | cons p rest =>
    cases rest with
    | cons q t => rfl
    | nil =>
      simp only [fastPathGuard, Bool.and_eq_false_iff] at hg
      show (if p.initialStates.isSome = true then none
        else if p.integratedStateType.getD .translational = .translational then
          match p.bodiesToPropagate, p.centralBodies with
          | some btp, some cb =>
            match bq btp cb with
            | .ok states => some [({ p with initialStates := some states } : PropJson)]
            | .error _ => none
          | _, _ => none
        else none) = none
      by_cases hs : p.initialStates.isSome = true
      · rw [if_pos hs]
      · rcases hg with hg | hg
        · simp [Option.isNone_iff_eq_none] at hg
          simp [Option.isSome_iff_exists, hg] at hs
        · rw [if_neg hs, if_neg (by simpa using hg)]

theorem fastPathAttempt_const_error (ps : List PropJson) (e : Error) :
    fastPathAttempt ps (fun _ _ => .error e) = none := by
  cases ps with
  | nil => rfl
  | cons p rest =>
    cases rest with
    | cons q t => rfl
    | nil =>
      show (if p.initialStates.isSome = true then none
        else if p.integratedStateType.getD .translational = .translational then
          match p.bodiesToPropagate, p.centralBodies with
          | some btp, some cb =>
            match (fun _ _ => Except.error e :
                List String → List String → Except Error (List ℚ)) btp cb with
            | .ok states => some [({ p with initialStates := some states } : PropJson)]
            | .error _ => none
          | _, _ => none
        else none) = none
      by_cases hs : p.initialStates.isSome = true
      · rw [if_pos hs]
      · rw [if_neg hs]
        by_cases ht : p.integratedStateType.getD .translational = .translational
        · rw [if_pos ht]
          cases p.bodiesToPropagate <;> cases p.centralBodies <;> rfl
        · rw [if_neg ht]



theorem perBodyResolve_frame {j : MultiTypeJson} {be : String → Except Error (List ℚ)}
    {p p1 : PropJson} (h : perBodyResolve j be p = .ok p1) : framePreserves p p1 := by
  unfold perBodyResolve at h
  split at h
  · cases h
    exact ⟨rfl, rfl, rfl, rfl, rfl, rfl, rfl, fun _ => rfl⟩
  · rename_i hs
    split at h
    · cases h
    · split at h
      · cases h
      · split at h
        · cases h
        · cases h
          exact ⟨rfl, rfl, rfl, rfl, rfl, rfl, rfl, fun hsome => absurd hsome hs⟩

theorem perBodyPass_frame {j : MultiTypeJson} {be : String → Except Error (List ℚ)} :
    ∀ {ps ps1 : List PropJson}, perBodyPass j be ps = .ok ps1 →
      List.Forall₂ framePreserves ps ps1 := by
  intro ps
  induction ps with
  | nil =>
    intro ps1 h
    cases h
    exact List.Forall₂.nil
  | cons p rest ih =>
    intro ps1 h
    unfold perBodyPass at h
    split at h
    · cases h
    · split at h
      · cases h
      · cases h
        exact List.Forall₂.cons (perBodyResolve_frame (by assumption)) (ih (by assumption))

theorem fastPathAttempt_frame {ps ps1 : List PropJson}
    {bq : List String → List String → Except Error (List ℚ)}
    (h : fastPathAttempt ps bq = some ps1) : List.Forall₂ framePreserves ps ps1 := by
  unfold fastPathAttempt at h
  split at h
  · rename_i p
    split at h
    · cases h
    · rename_i hs
      split at h
      · split at h
        · split at h
          · cases h
            exact List.Forall₂.cons
              ⟨rfl, rfl, rfl, rfl, rfl, rfl, rfl, fun hsome => absurd hsome hs⟩
              List.Forall₂.nil
          · cases h
        · cases h
      · cases h
  · cases h

/-- C9 -/
theorem determineInitialStates_frame (j : MultiTypeJson)
    (bq : List String → List String → Except Error (List ℚ))
    (be : String → Except Error (List ℚ)) (j1 : MultiTypeJson)
    (h : determineInitialStates j bq be = .ok j1) :
    j1.bodies = j.bodies ∧ j1.finalEpoch = j.finalEpoch ∧ j1.rest = j.rest ∧
    ∃ ps ps1 : List PropJson, j.propagators = some ps ∧ j1.propagators = some ps1 ∧
      List.Forall₂ framePreserves ps ps1 := by
  unfold determineInitialStates at h
  split at h
  · cases h
  · rename_i ps hreq
    split at h
    · cases h
      exact ⟨rfl, rfl, rfl, ps, _, req_ok_eq hreq, rfl, fastPathAttempt_frame (by assumption)⟩
    · split at h
      · cases h
      · cases h
        exact ⟨rfl, rfl, rfl, ps, _, req_ok_eq hreq, rfl, perBodyPass_frame (by assumption)⟩



/-- C4 -/
theorem fast_path_guard_and_recovery :
    (∀ (ps : List PropJson) (bq : List String → List String → Except Error (List ℚ)),
      fastPathGuard ps = false → fastPathAttempt ps bq = none) ∧
    (∀ (j : MultiTypeJson)
      (bq1 bq2 : List String → List String → Except Error (List ℚ))
      (be : String → Except Error (List ℚ)),
      (∀ ps : List PropJson, j.propagators = some ps → fastPathGuard ps = false) →
      determineInitialStates j bq1 be = determineInitialStates j bq2 be) ∧
    (∀ (j : MultiTypeJson) (ps : List PropJson)
      (be : String → Except Error (List ℚ)) (e : Error),
      j.propagators = some ps →
      determineInitialStates j (fun _ _ => .error e) be =
        (perBodyPass j be ps).map (fun ps1 => { j with propagators := some ps1 })) ∧
    (∀ (j : MultiTypeJson)
      (bq : List String → List String → Except Error (List ℚ))
      (be : String → Except Error (List ℚ)),
      determineInitialStates j bq be ≠ .error .EphemerisUnavailable) := by
  refine ⟨fastPathAttempt_none_of_guard_false, ?_, ?_, ?_⟩
  · intro j bq1 bq2 be hg
    unfold determineInitialStates
    cases hp : j.propagators with
    | none => rfl
    | some ps =>
      simp only [req]
      rw [fastPathAttempt_none_of_guard_false ps bq1 (hg ps hp),
        fastPathAttempt_none_of_guard_false ps bq2 (hg ps hp)]
  · intro j ps be e hp
    unfold determineInitialStates
    rw [hp]
    simp only [req]
    rw [fastPathAttempt_const_error]
    cases perBodyPass j be ps <;> rfl
  · intro j bq be h
    unfold determineInitialStates at h
    split at h
    · cases h
      exact Error.noConfusion (req_error_eq (by assumption))
    · split at h
      · cases h
      · split at h
        · cases h
          exact perBodyPass_ne j be _ (by assumption)
        · cases h

/-- C4 witness -/
theorem fast_path_guard_and_recovery_witness :
    determineInitialStates
        { propagators := some [{ bodiesToPropagate := some ["Sat"],
                                 centralBodies := some ["Earth"] }],
          bodies := [("Sat", { initialState := some [1, 2, 3, 4, 5, 6] })] }
        (fun _ _ => Except.error Error.EphemerisUnavailable)
        (fun _ => Except.error Error.EphemerisUnavailable) =
      (perBodyPass
          { propagators := some [{ bodiesToPropagate := some ["Sat"],
                                   centralBodies := some ["Earth"] }],
            bodies := [("Sat", { initialState := some [1, 2, 3, 4, 5, 6] })] }
          (fun _ => Except.error Error.EphemerisUnavailable)
          [{ bodiesToPropagate := some ["Sat"], centralBodies := some ["Earth"] }]).map
        (fun ps1 =>
          { propagators := some ps1,
            bodies := [("Sat", { initialState := some [1, 2, 3, 4, 5, 6] })] }) ∧
    determineInitialStates
        { propagators := some [{ bodiesToPropagate := some ["Sat"],
                                 centralBodies := some ["Earth"] }],
          bodies := [("Sat", { initialState := some [1, 2, 3, 4, 5, 6] })] }
        (fun _ _ => Except.error Error.EphemerisUnavailable)
        (fun _ => Except.error Error.EphemerisUnavailable) =
      .ok { propagators := some [{ bodiesToPropagate := some ["Sat"],
                                   centralBodies := some ["Earth"],
                                   initialStates := some [1, 2, 3, 4, 5, 6] }],
            bodies := [("Sat", { initialState := some [1, 2, 3, 4, 5, 6] })] } ∧
    fastPathGuard [{ initialStates := some [1, 2, 3, 4, 5, 6] }] = false ∧
    fastPathAttempt [{ initialStates := some [1, 2, 3, 4, 5, 6] }]
      (fun _ _ => Except.error Error.EphemerisUnavailable) = none ∧
    determineInitialStates
        { propagators := some [{ bodiesToPropagate := some ["Sat"],
                                 centralBodies := some ["Earth"] }],
          bodies := [("Sat", { initialState := some [1, 2, 3, 4, 5, 6] })] }
        (fun _ _ => Except.error Error.EphemerisUnavailable)
        (fun _ => Except.error Error.EphemerisUnavailable) ≠
      .error .EphemerisUnavailable := by
  refine ⟨?_, rfl, rfl, ?_, ?_⟩
  · exact fast_path_guard_and_recovery.2.2.1
      { propagators := some [{ bodiesToPropagate := some ["Sat"],
                               centralBodies := some ["Earth"] }],
        bodies := [("Sat", { initialState := some [1, 2, 3, 4, 5, 6] })] }
      [{ bodiesToPropagate := some ["Sat"], centralBodies := some ["Earth"] }]
      (fun _ => Except.error Error.EphemerisUnavailable) Error.EphemerisUnavailable rfl
  · exact fast_path_guard_and_recovery.1
      [{ initialStates := some [1, 2, 3, 4, 5, 6] }]
      (fun _ _ => Except.error Error.EphemerisUnavailable) rfl
  · exact fast_path_guard_and_recovery.2.2.2
      { propagators := some [{ bodiesToPropagate := some ["Sat"],
                               centralBodies := some ["Earth"] }],
        bodies := [("Sat", { initialState := some [1, 2, 3, 4, 5, 6] })] }
      (fun _ _ => Except.error Error.EphemerisUnavailable)
      (fun _ => Except.error Error.EphemerisUnavailable)

/-- C9 witness -/
theorem determineInitialStates_frame_witness :
    determineInitialStates { propagators := some [{ initialStates := some [1] }] }
        (fun _ _ => Except.error Error.EphemerisUnavailable)
        (fun _ => Except.error Error.EphemerisUnavailable) =
      .ok { propagators := some [{ initialStates := some [1] }] } ∧
    ((MultiTypeJson.mk (some [{ initialStates := some [1] }]) [] none []).bodies =
        (MultiTypeJson.mk (some [{ initialStates := some [1] }]) [] none []).bodies ∧
      (MultiTypeJson.mk (some [{ initialStates := some [1] }]) [] none []).finalEpoch =
        (MultiTypeJson.mk (some [{ initialStates := some [1] }]) [] none []).finalEpoch ∧
      (MultiTypeJson.mk (some [{ initialStates := some [1] }]) [] none []).rest =
        (MultiTypeJson.mk (some [{ initialStates := some [1] }]) [] none []).rest ∧
      ∃ ps ps1 : List PropJson,
        (MultiTypeJson.mk (some [{ initialStates := some [1] }]) [] none []).propagators =
          some ps ∧
        (MultiTypeJson.mk (some [{ initialStates := some [1] }]) [] none []).propagators =
          some ps1 ∧
        List.Forall₂ framePreserves ps ps1) :=
  ⟨rfl,
   determineInitialStates_frame
     { propagators := some [{ initialStates := some [1] }] }
     (fun _ _ => Except.error Error.EphemerisUnavailable)
     (fun _ => Except.error Error.EphemerisUnavailable)
     { propagators := some [{ initialStates := some [1] }] } rfl⟩

end TudatJson
